import Mathlib

/-!
# Cross-chain transaction tracker — verification development

Shallow embedding of the event-detection and publication pipeline of the
cross-chain transfer watcher (Rust sources in `src/rust/src/`): the retry
engine (`retry.rs`), the normalized event model, the per-record ingestion
steps of the EVM streaming trackers, the EVM polling path, the Solana
poller (`main.rs`), and the shared dedup/watermark state.

Machine integers are modelled as `Nat` (all quantities involved — block
numbers, slots, byte values, millisecond durations — are unsigned and far
from overflow in the source); `f64` backoff arithmetic is modelled over `ℚ`
with Rust's `round()`-then-`as u64` cast made explicit; fallible operations
return `Except`/`Option`, and the panic of `U256::from_big_endian` on
over-long input is modelled as an `Except.error`.
-/

namespace Tracker

/-! ## Byte-level rendering helpers

`format!("{:?}", h)` on an ethers `H256`/`H160` renders the full value as a
lowercase `0x`-prefixed hex string.  Bytes are `Nat`s below 256; an address
is 20 bytes, a hash 32 bytes. -/

/-- One lowercase hex digit for a value below 16 (`'0'..'9'`, `'a'..'f'`). -/
def hexDigit (n : Nat) : Char :=
  if n < 10 then Char.ofNat (48 + n) else Char.ofNat (87 + n)

/-- Big-endian hex character sequence of a byte list (two digits per byte). -/
def hexCharsOfBytes (bs : List Nat) : List Char :=
  bs.flatMap fun b => [hexDigit (b / 16), hexDigit (b % 16)]

/-- Debug rendering of a fixed-width byte value: `0x` followed by two
lowercase hex digits per byte, as `format!("\x7b:?\x7d")` produces for
`H256` and `H160` in ethers. -/
def hexOfBytes (bs : List Nat) : String :=
  "0x" ++ String.mk (hexCharsOfBytes bs)

/-- The low 20 bytes of a 32-byte topic, as `Address::from(log.topics[i])`. -/
def addressFromTopic (t : List Nat) : List Nat := t.drop 12

/-- `Address::zero()`. -/
def zeroAddress : List Nat := List.replicate 20 0

/-- Big-endian unsigned interpretation of a byte buffer. -/
def beNat (bs : List Nat) : Nat := bs.foldl (fun acc b => acc * 256 + b) 0

/-- `U256::from_big_endian(&data)`: defined only for buffers of at most 32
bytes; the underlying uint crate asserts `slice.len() <= 32` and panics
otherwise, which we model as `none`. -/
def u256_from_big_endian (bs : List Nat) : Option Nat :=
  if bs.length ≤ 32 then some (beNat bs) else none

/-! ## Event model (`struct Event` in `main.rs`) -/

/-- `struct Token` of `main.rs`. -/
structure Token where
  address : String
  symbol : String
  decimals : Nat
  deriving Repr, DecidableEq

/-- `struct Event` of `main.rs` — the normalized event record. -/
structure Event where
  event_id : String
  chain : String
  network : String
  tx_hash : String
  timestamp : String
  «from» : String
  «to» : String
  value : String
  event_type : String
  slot : Option Nat
  token : Option Token
  deriving Repr, DecidableEq

/-! ## Retry engine (`retry.rs`)

The `f64` factor is modelled as `ℚ`; `(x as f64).round() as u64` is
`(round x).toNat` (Rust rounds half away from zero, which agrees with
`round` on nonnegative rationals, and the `as u64` cast saturates
negatives to 0 exactly as `Int.toNat` does). -/

/-- Rust `(q.round()) as u64` for a nonsaturating nonnegative result. -/
def rustRoundU64 (q : ℚ) : Nat := (round q).toNat

/-- `backoff_durations(attempts, base, factor)` from `retry.rs`: the list of
delays, in milliseconds, entry `i` being `(base * factor.powi(i)).round()`. -/
def backoff_durations (attempts : Nat) (baseMs : Nat) (factor : ℚ) : List Nat :=
  (List.range attempts).map fun i => rustRoundU64 ((baseMs : ℚ) * factor ^ i)

/-- The retry loop of `retry_with_backoff` after a failed first attempt:
walk the remaining delay list, sleeping then re-invoking.  `op k` is the
result of the `(k+1)`-th invocation of the operation; the function returns
the final result, the total number of invocations performed, and the list
of sleep durations executed (in order). -/
def retryLoop {T E : Type} (op : Nat → Except E T) :
    List Nat → Nat → E → List Nat → Except E T × Nat × List Nat
  | [], k, lastErr, sleeps => (.error lastErr, k, sleeps)
  | d :: rest, k, _, sleeps =>
    match op k with
    | .ok v => (.ok v, k + 1, sleeps ++ [d])
    | .error e => retryLoop op rest (k + 1) e (sleeps ++ [d])

/-- `retry_with_backoff(attempts, base, factor, operation)` from `retry.rs`,
instrumented to also report the number of invocations of the operation and
the sleeps performed.  `op k` models the result of the `(k+1)`-th
invocation. -/
def retry_with_backoff {T E : Type} (attempts : Nat) (baseMs : Nat) (factor : ℚ)
    (op : Nat → Except E T) : Except E T × Nat × List Nat :=
  if attempts = 0 then (op 0, 1, [])
  else
    let delays := backoff_durations (attempts - 1) baseMs factor
    match op 0 with
    | .ok v => (.ok v, 1, [])
    | .error e => retryLoop op delays 1 e []

/-! ## Event-id construction (`format!` expressions in `main.rs`) -/

/-- `format!("eth:\x7b:?\x7d", tx_hash)` — EVM native transfers and
streaming-mode token logs. -/
def eth_event_id (txh : List Nat) : String := "eth:" ++ hexOfBytes txh

/-- `format!("eth:\x7b:?\x7d:log\x7b\x7d", tx.hash, log.log_index.unwrap_or_default())`
— polling-mode token logs; the log index is rendered in decimal and
defaults to 0 when missing. -/
def eth_log_event_id (txh : List Nat) (logIndex : Option Nat) : String :=
  "eth:" ++ hexOfBytes txh ++ ":log" ++ toString (logIndex.getD 0)

/-- `format!("sol:\x7b\x7d", signature)` — Solana events. -/
def sol_event_id (signature : String) : String := "sol:" ++ signature

/-! ## Chain records and shared tracker state -/

/-- An EVM log as consumed by the trackers (`ethers::types::Log`):
topics are 32-byte words, `data` a raw byte buffer, the remaining fields
optional exactly as in the source type. -/
structure EthLog where
  topics : List (List Nat)
  data : List Nat
  transaction_hash : Option (List Nat)
  block_number : Option Nat
  log_index : Option Nat
  address : List Nat

/-- An EVM transaction body (`ethers::types::Transaction`), restricted to
the fields the trackers read. -/
structure EthTx where
  hash : List Nat
  «from» : List Nat
  «to» : Option (List Nat)
  value : Nat

/-- An EVM block with full transaction bodies, restricted to the fields
the trackers read. -/
structure EthBlock where
  number : Option Nat
  timestamp : Nat
  transactions : List EthTx

/-- A fetched Solana transaction: its slot, optional block time, and the
static account keys of the decoded message (`none` models
`transaction.decode()` returning `None`). -/
structure SolTx where
  slot : Nat
  block_time : Option Int
  account_keys : Option (List String)

/-- The process-wide shared mutable state: the dedup set `processed_txs`
and the two per-chain watermarks. -/
structure TrackerState where
  processed_txs : List String
  last_eth_block : Option Nat
  last_sol_slot : Option Nat

/-- The watermark advance pattern used by both streaming EVM trackers and
the Solana poller: `if last.is_none() || v > last.unwrap() \x7b *last = Some(v) \x7d`. -/
def advance_watermark (last : Option Nat) (v : Nat) : Option Nat :=
  match last with
  | none => some v
  | some prev => if v > prev then some v else some prev

/-! ## RFC-3339 timestamp rendering

`chrono::DateTime::from_timestamp(block_time, 0).unwrap().to_rfc3339()`
renders a Unix timestamp in the proleptic Gregorian calendar as
`YYYY-MM-DDTHH:MM:SS+00:00`.  The date conversion is the standard
civil-from-days algorithm. -/

/-- Zero-pad a number to two digits. -/
def zpad2 (n : Nat) : String := if n < 10 then "0" ++ toString n else toString n

/-- Zero-pad a number to four digits. -/
def zpad4 (n : Nat) : String :=
  if n < 10 then "000" ++ toString n
  else if n < 100 then "00" ++ toString n
  else if n < 1000 then "0" ++ toString n
  else toString n

/-- Proleptic-Gregorian `(year, month, day)` of a day count relative to
1970-01-01 (civil-from-days). -/
def civilFromDays (z0 : Int) : Int × Nat × Nat :=
  let z := z0 + 719468
  let era := z.ediv 146097
  let doe := (z.emod 146097).toNat
  let yoe := (doe - doe / 1460 + doe / 36524 - doe / 146096) / 365
  let doy := doe - (365 * yoe + yoe / 4 - yoe / 100)
  let mp := (5 * doy + 2) / 153
  let d := doy - (153 * mp + 2) / 5 + 1
  let m := if mp < 10 then mp + 3 else mp - 9
  let y := era * 400 + yoe + (if m ≤ 2 then 1 else 0)
  (y, m, d)

/-- RFC-3339 / ISO-8601 rendering of a Unix timestamp at UTC. -/
def rfc3339 (t : Int) : String :=
  let days := t.ediv 86400
  let secs := (t.emod 86400).toNat
  let ymd := civilFromDays days
  (if ymd.1 < 0 then "-" ++ zpad4 (-ymd.1).toNat else zpad4 ymd.1.toNat)
    ++ "-" ++ zpad2 ymd.2.1 ++ "-" ++ zpad2 ymd.2.2
    ++ "T" ++ zpad2 (secs / 3600) ++ ":" ++ zpad2 (secs % 3600 / 60)
    ++ ":" ++ zpad2 (secs % 60) ++ "+00:00"

/-! ## Per-record ingestion steps

Each step takes the shared state and one raw chain record, and returns the
publish outcome together with the updated state.  `Except.error ()` marks a
panic (`U256::from_big_endian` on over-long data) or a propagated RPC
error; in both cases the event outcome is "nothing published". -/

/-- One log of the streaming fungible-token tracker
(`track_erc20_transfers`, loop body).  `fetchTs` models
`provider.get_block(bn)` returning the block's timestamp. -/
def track_erc20_log_step (watched : List (List Nat)) (network : String)
    (fetchTs : Nat → Option Nat) (st : TrackerState) (log : EthLog) :
    Except Unit (Option Event) × TrackerState :=
  match log.topics with
  | [_t0, t1, t2] =>
    let f := addressFromTopic t1
    let t := addressFromTopic t2
    if watched.contains f || watched.contains t then
      let txh := log.transaction_hash.getD (List.replicate 32 0)
      let event_id := eth_event_id txh
      if event_id ∈ st.processed_txs then (.ok none, st)
      else
        let timestamp :=
          match log.block_number with
          | some bn =>
            match fetchTs bn with
            | some ts => toString ts
            | none => ""
          | none => ""
        match u256_from_big_endian log.data with
        | none => (.error (), st)
        | some v =>
          let ev : Event :=
            { event_id, chain := "ethereum", network, tx_hash := hexOfBytes txh,
              timestamp, «from» := hexOfBytes f, «to» := hexOfBytes t,
              value := toString v, event_type := "erc20_transfer",
              slot := none, token := none }
          let st1 := { st with processed_txs := event_id :: st.processed_txs }
          let st2 :=
            match log.block_number with
            | some bn => { st1 with last_eth_block := advance_watermark st1.last_eth_block bn }
            | none => st1
          (.ok (some ev), st2)
    else (.ok none, st)
  | _ => (.ok none, st)

/-- One transaction of the streaming native-transfer tracker
(`track_native_transfers`, inner loop over `block.transactions`). -/
def native_tx_step (watched : List (List Nat)) (network : String)
    (blockTimestamp : Nat) (st : TrackerState) (tx : EthTx) :
    Option Event × TrackerState :=
  let from_watched := tx.«from» != zeroAddress && watched.contains tx.«from»
  let to_watched := tx.«to».isSome && watched.contains (tx.«to».getD zeroAddress)
  if from_watched || to_watched then
    let event_id := eth_event_id tx.hash
    if event_id ∈ st.processed_txs then (none, st)
    else
      let ev : Event :=
        { event_id, chain := "ethereum", network, tx_hash := hexOfBytes tx.hash,
          timestamp := toString blockTimestamp, «from» := hexOfBytes tx.«from»,
          «to» := hexOfBytes (tx.«to».getD zeroAddress), value := toString tx.value,
          event_type := "transfer", slot := none, token := none }
      (some ev, { st with processed_txs := event_id :: st.processed_txs })
  else (none, st)

/-- One block of the streaming native-transfer tracker: process every
transaction, then advance the EVM watermark with the block number
(`unwrap_or_default`). -/
def track_native_block_step (watched : List (List Nat)) (network : String)
    (st : TrackerState) (block : EthBlock) : List Event × TrackerState :=
  let folded := block.transactions.foldl
    (fun (acc : List Event × TrackerState) tx =>
      let r := native_tx_step watched network block.timestamp acc.2 tx
      (acc.1 ++ r.1.toList, r.2)) ([], st)
  (folded.1,
   { folded.2 with
     last_eth_block := advance_watermark folded.2.last_eth_block (block.number.getD 0) })

/-- `keccak256("Transfer(address,address,uint256)")`, the topic-0 constant
compared against in `process_eth_block` (the hash of a fixed string
literal, given here as its well-known 32-byte value). -/
def transferTopic0 : List Nat :=
  [221, 242, 82, 173, 27, 226, 200, 155,
   105, 194, 176, 104, 252, 55, 141, 170,
   149, 43, 167, 241, 99, 196, 161, 22,
   40, 245, 90, 77, 245, 35, 179, 239]

/-- One transaction of the polling-mode native-transfer scan
(`process_eth_block`, first half of the transaction loop).  The dedup
test-and-set (`HashSet::insert`) happens before publishing. -/
def poll_native_tx_step (watched : List (List Nat)) (network : String)
    (blockTimestamp : Nat) (st : TrackerState) (tx : EthTx) :
    Option Event × TrackerState :=
  let track_all := watched.isEmpty
  let from_watched := track_all || watched.contains tx.«from»
  let to_watched := track_all || (tx.«to».map (fun a => watched.contains a)).getD false
  if from_watched || to_watched then
    let event_id := eth_event_id tx.hash
    if event_id ∈ st.processed_txs then (none, st)
    else
      let ev : Event :=
        { event_id, chain := "ethereum", network, tx_hash := hexOfBytes tx.hash,
          timestamp := toString blockTimestamp, «from» := hexOfBytes tx.«from»,
          «to» := hexOfBytes (tx.«to».getD zeroAddress), value := toString tx.value,
          event_type := "transfer", slot := none, token := none }
      (some ev, { st with processed_txs := event_id :: st.processed_txs })
  else (none, st)

/-- One receipt log of the polling-mode token scan (`process_eth_block`,
second half of the transaction loop).  The dedup insert happens before the
event is constructed, so the value-decode panic on over-long `data` fires
after the id is already recorded. -/
def poll_erc20_log_step (watched : List (List Nat)) (network : String)
    (txHash : List Nat) (blockTimestamp : Nat) (st : TrackerState) (log : EthLog) :
    Except Unit (Option Event) × TrackerState :=
  match log.topics with
  | [t0, t1, t2] =>
    if t0 = transferTopic0 then
      let f := addressFromTopic t1
      let t := addressFromTopic t2
      let track_all := watched.isEmpty
      if track_all || watched.contains f || watched.contains t then
        let event_id := eth_log_event_id txHash log.log_index
        if event_id ∈ st.processed_txs then (.ok none, st)
        else
          let st1 := { st with processed_txs := event_id :: st.processed_txs }
          match u256_from_big_endian log.data with
          | none => (.error (), st1)
          | some v =>
            (.ok (some
              { event_id, chain := "ethereum", network, tx_hash := hexOfBytes txHash,
                timestamp := toString blockTimestamp, «from» := hexOfBytes f,
                «to» := hexOfBytes t, value := toString v,
                event_type := "erc20_transfer", slot := none,
                token := some { address := hexOfBytes log.address, symbol := "",
                                decimals := 18 } }), st1)
      else (.ok none, st)
    else (.ok none, st)
  | _ => (.ok none, st)

/-- `process_solana_transaction`: dedup check on `sol:<signature>`, fetch
(`none` models a propagated fetch/parse error), account-key membership
check, emit, insert, then advance the slot watermark. -/
def process_solana_transaction (network : String) (watched : String)
    (signature : String) (txFetch : Option SolTx) (st : TrackerState) :
    Except Unit (Option Event) × TrackerState :=
  let event_id := sol_event_id signature
  if event_id ∈ st.processed_txs then (.ok none, st)
  else
    match txFetch with
    | none => (.error (), st)
    | some tx =>
      let block_time := tx.block_time.getD 0
      let timestamp := rfc3339 block_time
      match tx.account_keys with
      | some keys =>
        if keys.contains watched then
          (.ok (some
            { event_id, chain := "solana", network, tx_hash := signature,
              timestamp, «from» := "", «to» := "", value := "",
              event_type := "solana_tx", slot := some tx.slot, token := none }),
           { st with processed_txs := event_id :: st.processed_txs,
                     last_sol_slot := advance_watermark st.last_sol_slot tx.slot })
        else
          (.ok none,
           { st with last_sol_slot := advance_watermark st.last_sol_slot tx.slot })
      | none =>
        (.ok none,
         { st with last_sol_slot := advance_watermark st.last_sol_slot tx.slot })

/-! ## Polling-mode EVM iteration (`poll_eth_blocks` loop body) -/

/-- The observable outcome of one polling iteration: the computed start
block, the value the watermark was rewound to on a detected regression
(with the regression log line), the block numbers processed in order, and
the final watermark. -/
structure PollResult where
  start : Nat
  rewoundTo : Option Nat
  regressionLogged : Bool
  processed : List Nat
  newLast : Option Nat
  deriving Repr, DecidableEq

/-- The tail of one `poll_eth_blocks` iteration once the start block is
determined: the `current >= start` guard, the range computation, the block
scan and the final `*last = Some(current)`.  `lastAfterStart` is the
watermark value as already updated by the start computation (rewound on a
regression), which survives if the guard fails. -/
def finishPollIteration (current start : Nat) (lastAfterStart : Option Nat)
    (rewound : Option Nat) (logged : Bool) : PollResult :=
  if start ≤ current then
    { start, rewoundTo := rewound, regressionLogged := logged,
      processed :=
        if (if current = start then start else start + 1) ≤ current then
          List.range' (if current = start then start else start + 1)
            (current + 1 - (if current = start then start else start + 1))
        else [],
      newLast := some current }
  else
    { start, rewoundTo := rewound, regressionLogged := logged,
      processed := [], newLast := lastAfterStart }

/-- One iteration of `poll_eth_blocks` after `get_block_number` returned
`current`, starting from watermark `last`. -/
def poll_eth_iteration (current : Nat) (last : Option Nat) : PollResult :=
  match last with
  | some prev =>
    if current < prev then
      finishPollIteration current (current - 10) (some (current - 10))
        (some (current - 10)) true
    else
      finishPollIteration current prev (some prev) none false
  | none =>
    finishPollIteration current (if 0 < current then 0 else current) none none false

/-! ## The shared-state trace across all ingestion paths -/

/-- One raw chain record, tagged with the ingestion path that processes
it.  `solanaSig` carries the watched pubkey of its per-address task and the
fetched transaction. -/
inductive Record where
  | erc20Stream (fetchTs : Nat → Option Nat) (log : EthLog)
  | nativeStream (blockTimestamp : Nat) (tx : EthTx)
  | pollTx (blockTimestamp : Nat) (tx : EthTx)
  | pollLog (txHash : List Nat) (blockTimestamp : Nat) (log : EthLog)
  | solanaSig (watched : String) (signature : String) (txFetch : Option SolTx)

/-- Dispatch one record to its ingestion path's per-record step. -/
def step (watched : List (List Nat)) (network : String) (st : TrackerState) :
    Record → Except Unit (Option Event) × TrackerState
  | .erc20Stream fetchTs log => track_erc20_log_step watched network fetchTs st log
  | .nativeStream blockTimestamp tx =>
    let r := native_tx_step watched network blockTimestamp st tx
    (.ok r.1, r.2)
  | .pollTx blockTimestamp tx =>
    let r := poll_native_tx_step watched network blockTimestamp st tx
    (.ok r.1, r.2)
  | .pollLog txHash blockTimestamp log =>
    poll_erc20_log_step watched network txHash blockTimestamp st log
  | .solanaSig w signature txFetch =>
    process_solana_transaction network w signature txFetch st

/-- Process a sequence of records against the shared state, collecting the
events actually enqueued to the broker, in order. -/
def runTrace (watched : List (List Nat)) (network : String) :
    TrackerState → List Record → List Event × TrackerState
  | st, [] => ([], st)
  | st, r :: rs =>
    let s := step watched network st r
    let rest := runTrace watched network s.2 rs
    match s.1 with
    | .ok (some e) => (e :: rest.1, rest.2)
    | _ => rest

/-- Strict progress order on watermark cells: `none` (unset) is below any
set value, and set values compare by the underlying number. -/
def watermarkLt : Option Nat → Option Nat → Prop
  | none, some _ => True
  | some a, some b => a < b
  | _, none => False

/-! ## C6 — backoff sequence -/

/-- C6: `backoff_durations(N, B, F)` has length `N`, its element at index
`i` is `round(B · F^i)` milliseconds (so index 0 equals `B`), and
`backoff_durations(4, 100 ms, 2.0) = [100 ms, 200 ms, 400 ms, 800 ms]`. -/
theorem backoff_durations_spec (N baseMs : Nat) (F : ℚ) :
    (backoff_durations N baseMs F).length = N
    ∧ (∀ i, i < N →
        (backoff_durations N baseMs F)[i]? = some ((round ((baseMs : ℚ) * F ^ i)).toNat))
    ∧ (0 < N → (backoff_durations N baseMs F)[0]? = some baseMs)
    ∧ backoff_durations 4 100 2 = [100, 200, 400, 800] := by
  refine ⟨by simp [backoff_durations], fun i hi => ?_, fun hN => ?_, ?_⟩
  · simp [backoff_durations, rustRoundU64, List.getElem?_map, List.getElem?_range, hi]
  · simp [backoff_durations, rustRoundU64, List.getElem?_map, List.getElem?_range, hN]
  · norm_num [backoff_durations, rustRoundU64, List.range_succ]; try omega

/-- Witness for C6 at `N = 4`, `B = 100`, `F = 2`, index `i = 2`. -/
theorem backoff_durations_spec_witness :
    (backoff_durations 4 100 2).length = 4
    ∧ (backoff_durations 4 100 2)[2]? = some ((round ((100 : ℚ) * 2 ^ 2)).toNat)
    ∧ (backoff_durations 4 100 2)[0]? = some 100
    ∧ backoff_durations 4 100 2 = [100, 200, 400, 800] :=
  ⟨(backoff_durations_spec 4 100 2).1,
   (backoff_durations_spec 4 100 2).2.1 2 (by omega),
   (backoff_durations_spec 4 100 2).2.2.1 (by omega),
   (backoff_durations_spec 4 100 2).2.2.2⟩

/-! ## C2 — retry law -/

/-- The retry loop succeeds at relative index `m` of the delay list:
`op` fails on invocations `k, …, k+m−1` and succeeds on `k+m`. -/
theorem retryLoop_succeeds {T E : Type} (op : Nat → Except E T) (v : T) :
    ∀ (ds : List Nat) (m k : Nat) (e : E) (sleeps : List Nat),
      m < ds.length →
      (∀ j, j < m → ∃ e', op (k + j) = .error e') →
      op (k + m) = .ok v →
      retryLoop op ds k e sleeps = (.ok v, k + m + 1, sleeps ++ ds.take (m + 1)) := by
  intro ds
  induction ds with
  | nil => intro m k e sleeps hm _ _; simp at hm
  | cons d rest ih =>
    intro m k e sleeps hm hfail hok
    match m with
    | 0 =>
      simp only [Nat.add_zero] at hok
      simp [retryLoop, hok]
    | m' + 1 =>
      obtain ⟨e', he'⟩ := hfail 0 (Nat.succ_pos m')
      simp only [Nat.add_zero] at he'
      have hstep : retryLoop op (d :: rest) k e sleeps
          = retryLoop op rest (k + 1) e' (sleeps ++ [d]) := by
        simp [retryLoop, he']
      rw [hstep, ih m' (k + 1) e' (sleeps ++ [d])
        (by simpa using Nat.lt_of_succ_lt_succ hm)
        (fun j hj => by
          obtain ⟨e'', he''⟩ := hfail (j + 1) (Nat.succ_lt_succ hj)
          exact ⟨e'', by rw [show k + 1 + j = k + (j + 1) by omega]; exact he''⟩)
        (by rw [show k + 1 + m' = k + (m' + 1) by omega]; exact hok)]
      rw [show k + 1 + m' + 1 = k + (m' + 1) + 1 by omega]
      simp [List.take_succ_cons, List.append_assoc]

/-- The retry loop exhausts the delay list when every remaining invocation
fails; the result is the last error, with every delay slept. -/
theorem retryLoop_all_fail {T E : Type} (op : Nat → Except E T) (errs : Nat → E) :
    ∀ (ds : List Nat) (k : Nat) (sleeps : List Nat),
      1 ≤ k →
      (∀ j, j < ds.length → op (k + j) = .error (errs (k + j))) →
      retryLoop op ds k (errs (k - 1)) sleeps
        = (.error (errs (k - 1 + ds.length)), k + ds.length, sleeps ++ ds) := by
  intro ds
  induction ds with
  | nil => intro k sleeps _ _; simp [retryLoop]
  | cons d rest ih =>
    intro k sleeps hk hfail
    have h0 : op k = .error (errs k) := by simpa using hfail 0 (Nat.succ_pos _)
    have hstep : retryLoop op (d :: rest) k (errs (k - 1)) sleeps
        = retryLoop op rest (k + 1) (errs k) (sleeps ++ [d]) := by
      simp [retryLoop, h0]
    have hrec := ih (k + 1) (sleeps ++ [d]) (by omega)
      (fun j hj => by
        rw [show k + 1 + j = k + (j + 1) by omega]
        exact hfail (j + 1) (by simpa using Nat.succ_lt_succ hj))
    rw [show k + 1 - 1 = k by omega] at hrec
    have h1 : k - 1 + (d :: rest).length = k + rest.length := by
      simp only [List.length_cons]; omega
    have h2 : k + (d :: rest).length = k + 1 + rest.length := by
      simp only [List.length_cons]; omega
    rw [hstep, hrec, h1, h2]
    simp [List.append_assoc]

/-- C2: if the operation fails on its first `K−1` invocations and succeeds
on the `K`-th with `1 ≤ K ≤ N`, `retry_with_backoff` returns that success
after exactly `K` invocations, having slept `round(B·F^0), …, round(B·F^(K−2))`
milliseconds; if all `N ≥ 1` invocations fail, it returns the error of the
last (`N`-th) invocation after `N` invocations and `N−1` sleeps. -/
theorem retry_with_backoff_spec {T E : Type} (N K baseMs : Nat) (F : ℚ)
    (op : Nat → Except E T) :
    (∀ v : T, 1 ≤ K → K ≤ N →
      (∀ i, i < K - 1 → ∃ e, op i = .error e) →
      op (K - 1) = .ok v →
      retry_with_backoff N baseMs F op
        = (.ok v, K, (List.range (K - 1)).map fun i => rustRoundU64 ((baseMs : ℚ) * F ^ i)))
    ∧ (∀ errs : Nat → E, 1 ≤ N →
      (∀ i, i < N → op i = .error (errs i)) →
      retry_with_backoff N baseMs F op
        = (.error (errs (N - 1)), N,
           (List.range (N - 1)).map fun i => rustRoundU64 ((baseMs : ℚ) * F ^ i))) := by
  constructor
  · intro v hK hKN hfail hok
    have hN : ¬(N = 0) := by omega
    rw [retry_with_backoff, if_neg hN]
    match K, hK with
    | 1, _ =>
      simp only [Nat.sub_self] at hok
      simp [hok, backoff_durations]
    | K' + 2, _ =>
      obtain ⟨e0, he0⟩ := hfail 0 (by omega)
      simp only [he0]
      have hloop := retryLoop_succeeds op v (backoff_durations (N - 1) baseMs F)
        K' 1 e0 [] (by simp only [backoff_durations, List.length_map, List.length_range]; omega)
        (fun j hj => by
          obtain ⟨e', he'⟩ := hfail (1 + j) (by omega)
          exact ⟨e', he'⟩)
        (by rw [show (1 : Nat) + K' = K' + 2 - 1 by omega]; exact hok)
      rw [hloop]
      rw [show (1 : Nat) + K' + 1 = K' + 2 by omega]
      simp only [List.nil_append]
      rw [show K' + 2 - 1 = K' + 1 by omega, backoff_durations,
        ← List.map_take, List.take_range, Nat.min_eq_left (by omega)]
  · intro errs hN hfail
    rw [retry_with_backoff, if_neg (by omega)]
    have h0 : op 0 = .error (errs 0) := hfail 0 (by omega)
    simp only [h0]
    have hloop := retryLoop_all_fail op errs (backoff_durations (N - 1) baseMs F)
      1 [] (le_refl 1)
      (fun j hj => by
        have hjN : j < N - 1 := by
          simpa [backoff_durations] using hj
        exact hfail (1 + j) (by omega))
    rw [show (1 : Nat) - 1 = 0 by rfl] at hloop
    rw [hloop]
    have hlen : (backoff_durations (N - 1) baseMs F).length = N - 1 := by
      simp [backoff_durations]
    rw [hlen, Nat.zero_add, show 1 + (N - 1) = N by omega]
    simp only [List.nil_append]
    rfl

/-- Witness for C2: an operation failing once then succeeding
(`N = 3, K = 2, B = 100, F = 2`), and an always-failing operation. -/
theorem retry_with_backoff_spec_witness :
    retry_with_backoff 3 100 2 (fun i => if i < 1 then Except.error i else Except.ok 42)
      = (.ok 42, 2, [100])
    ∧ retry_with_backoff 3 100 2 (fun i => (Except.error i : Except Nat Nat))
      = (.error 2, 3, [100, 200]) := by
  constructor
  · have h := (retry_with_backoff_spec 3 2 100 2
      (fun i => if i < 1 then Except.error i else Except.ok 42)).1 42
      (by omega) (by omega)
      (fun i hi => ⟨i, by simp [show i < 1 from hi]⟩) rfl
    rw [h]
    have hl : (List.range (2 - 1)).map (fun i => rustRoundU64 (((100 : ℕ) : ℚ) * 2 ^ i))
        = [100] := by
      norm_num [List.range_succ, rustRoundU64]; try omega
    rw [hl]
  · have h := (retry_with_backoff_spec 3 3 100 2
      (fun i => (Except.error i : Except Nat Nat))).2 (fun i => i)
      (by omega) (fun i _ => rfl)
    rw [h]
    have hl : (List.range (3 - 1)).map (fun i => rustRoundU64 (((100 : ℕ) : ℚ) * 2 ^ i))
        = [100, 200] := by
      norm_num [List.range_succ, rustRoundU64]; try omega
    rw [hl]

/-! ## C3 — polling-mode EVM iteration -/

/-- Fields of `finishPollIteration` when the `start ≤ current` guard holds. -/
theorem finishPollIteration_fields (c s : Nat) (la rw : Option Nat) (lg : Bool)
    (h : s ≤ c) :
    (finishPollIteration c s la rw lg).start = s
    ∧ (finishPollIteration c s la rw lg).rewoundTo = rw
    ∧ (finishPollIteration c s la rw lg).regressionLogged = lg
    ∧ (finishPollIteration c s la rw lg).newLast = some c := by
  unfold finishPollIteration
  rw [if_pos h]
  exact ⟨rfl, rfl, rfl, rfl⟩

/-- Processed range of `finishPollIteration` when `start < current`. -/
theorem finishPollIteration_processed_lt (c s : Nat) (la rw : Option Nat) (lg : Bool)
    (h : s < c) :
    (finishPollIteration c s la rw lg).processed = List.range' (s + 1) (c - s) := by
  unfold finishPollIteration
  rw [if_pos (le_of_lt h)]
  dsimp only
  rw [if_neg (show ¬ c = s by omega), if_pos (show s + 1 ≤ c by omega)]
  congr 1
  omega

/-- Processed range of `finishPollIteration` when `start = current`. -/
theorem finishPollIteration_processed_eq (c s : Nat) (la rw : Option Nat) (lg : Bool)
    (h : s = c) :
    (finishPollIteration c s la rw lg).processed = [c] := by
  subst h
  unfold finishPollIteration
  rw [if_pos le_rfl]
  dsimp only
  rw [if_pos rfl, if_pos le_rfl, show s + 1 - s = 1 by omega]
  simp [List.range']

/-- `poll_eth_iteration` on an empty watermark. -/
theorem poll_eth_iteration_none (c : Nat) :
    poll_eth_iteration c none
      = finishPollIteration c (if 0 < c then 0 else c) none none false := rfl

/-- `poll_eth_iteration` on a detected regression. -/
theorem poll_eth_iteration_reg (c prev : Nat) (h : c < prev) :
    poll_eth_iteration c (some prev)
      = finishPollIteration c (c - 10) (some (c - 10)) (some (c - 10)) true := by
  dsimp only [poll_eth_iteration]
  rw [if_pos h]

/-- `poll_eth_iteration` without a regression. -/
theorem poll_eth_iteration_noreg (c prev : Nat) (h : prev ≤ c) :
    poll_eth_iteration c (some prev)
      = finishPollIteration c prev (some prev) none false := by
  dsimp only [poll_eth_iteration]
  rw [if_neg (by omega)]

/-- C3: one polling iteration with current block `C` and watermark `last`:
`last = none` starts at 0 when `C > 0` and at `C` otherwise; `C < last`
rewinds the watermark to `C − 10` (saturating), starts there and logs a
regression; otherwise it starts at `last`.  The processed blocks are
exactly `[start+1, C]` when `C > start` and `[C, C]` when `C = start`,
and afterwards the watermark is `C`. -/
theorem poll_eth_iteration_spec (current : Nat) (last : Option Nat) :
    (last = none →
      (poll_eth_iteration current last).start = (if 0 < current then 0 else current)
      ∧ (poll_eth_iteration current last).regressionLogged = false)
    ∧ (∀ prev, last = some prev → current < prev →
      (poll_eth_iteration current last).rewoundTo = some (current - 10)
      ∧ (poll_eth_iteration current last).start = current - 10
      ∧ (poll_eth_iteration current last).regressionLogged = true)
    ∧ (∀ prev, last = some prev → prev ≤ current →
      (poll_eth_iteration current last).start = prev
      ∧ (poll_eth_iteration current last).regressionLogged = false)
    ∧ ((poll_eth_iteration current last).start < current →
      (poll_eth_iteration current last).processed =
        List.range' ((poll_eth_iteration current last).start + 1)
          (current - (poll_eth_iteration current last).start))
    ∧ ((poll_eth_iteration current last).start = current →
      (poll_eth_iteration current last).processed = [current])
    ∧ (poll_eth_iteration current last).newLast = some current := by
  refine ⟨?_, ?_, ?_, ?_, ?_, ?_⟩
  · rintro rfl
    rw [poll_eth_iteration_none]
    have hf := finishPollIteration_fields current (if 0 < current then 0 else current)
      none none false (by split <;> omega)
    exact ⟨hf.1, hf.2.2.1⟩
  · rintro prev rfl hlt
    rw [poll_eth_iteration_reg current prev hlt]
    have hf := finishPollIteration_fields current (current - 10) (some (current - 10))
      (some (current - 10)) true (by omega)
    exact ⟨hf.2.1, hf.1, hf.2.2.1⟩
  · rintro prev rfl hle
    rw [poll_eth_iteration_noreg current prev hle]
    have hf := finishPollIteration_fields current prev (some prev) none false hle
    exact ⟨hf.1, hf.2.2.1⟩
  · intro hlt
    rcases last with _ | prev
    · rw [poll_eth_iteration_none] at hlt ⊢
      rw [(finishPollIteration_fields current _ none none false (by split <;> omega)).1]
        at hlt ⊢
      exact finishPollIteration_processed_lt current _ none none false hlt
    · by_cases hreg : current < prev
      · rw [poll_eth_iteration_reg current prev hreg] at hlt ⊢
        rw [(finishPollIteration_fields current _ (some (current - 10))
          (some (current - 10)) true (by omega)).1] at hlt ⊢
        exact finishPollIteration_processed_lt current _ _ _ true hlt
      · rw [poll_eth_iteration_noreg current prev (by omega)] at hlt ⊢
        rw [(finishPollIteration_fields current _ (some prev) none false
          (by omega)).1] at hlt ⊢
        exact finishPollIteration_processed_lt current _ _ _ false hlt
  · intro heq
    rcases last with _ | prev
    · rw [poll_eth_iteration_none] at heq ⊢
      rw [(finishPollIteration_fields current _ none none false (by split <;> omega)).1]
        at heq
      exact finishPollIteration_processed_eq current _ none none false heq
    · by_cases hreg : current < prev
      · rw [poll_eth_iteration_reg current prev hreg] at heq ⊢
        rw [(finishPollIteration_fields current _ (some (current - 10))
          (some (current - 10)) true (by omega)).1] at heq
        exact finishPollIteration_processed_eq current _ _ _ true heq
      · rw [poll_eth_iteration_noreg current prev (by omega)] at heq ⊢
        rw [(finishPollIteration_fields current _ (some prev) none false
          (by omega)).1] at heq
        exact finishPollIteration_processed_eq current _ _ _ false heq
  · rcases last with _ | prev
    · rw [poll_eth_iteration_none]
      exact (finishPollIteration_fields current _ none none false
        (by split <;> omega)).2.2.2
    · by_cases hreg : current < prev
      · rw [poll_eth_iteration_reg current prev hreg]
        exact (finishPollIteration_fields current _ (some (current - 10))
          (some (current - 10)) true (by omega)).2.2.2
      · rw [poll_eth_iteration_noreg current prev (by omega)]
        exact (finishPollIteration_fields current _ (some prev) none false
          (by omega)).2.2.2

/-- Witness for C3, the spec's concrete scenario: `C = 50`, `last = 100`
rewinds the watermark to 40, starts there, logs the regression, processes
blocks 41 through 50, and ends with watermark 50. -/
theorem poll_eth_iteration_spec_witness :
    (poll_eth_iteration 50 (some 100)).rewoundTo = some 40
    ∧ (poll_eth_iteration 50 (some 100)).start = 40
    ∧ (poll_eth_iteration 50 (some 100)).regressionLogged = true
    ∧ (poll_eth_iteration 50 (some 100)).processed
        = [41, 42, 43, 44, 45, 46, 47, 48, 49, 50]
    ∧ (poll_eth_iteration 50 (some 100)).newLast = some 50 := by
  have h := poll_eth_iteration_spec 50 (some 100)
  obtain ⟨hrw, hst, hlg⟩ := h.2.1 100 rfl (by omega)
  refine ⟨hrw, hst, hlg, ?_, h.2.2.2.2.2⟩
  have hp := h.2.2.2.1 (by rw [hst]; omega)
  rw [hp, hst]
  decide

/-! ## C5 — event-id construction -/

/-- Two hex characters are produced per byte. -/
theorem hexCharsOfBytes_length (bs : List Nat) :
    (hexCharsOfBytes bs).length = 2 * bs.length := by
  induction bs with
  | nil => rfl
  | cons b rest ih =>
    simp only [hexCharsOfBytes, List.flatMap_cons, List.length_append,
      List.length_cons, List.length_nil] at ih ⊢
    omega

/-- `hexDigit` of a value below 16 is a lowercase hex character. -/
theorem hexDigit_mem (n : Nat) (h : n < 16) :
    hexDigit n ∈ "0123456789abcdef".data := by
  interval_cases n <;> decide

/-- All characters rendered from bytes are lowercase hex characters. -/
theorem hexCharsOfBytes_mem (bs : List Nat) (hb : ∀ b ∈ bs, b < 256) :
    ∀ c ∈ hexCharsOfBytes bs, c ∈ "0123456789abcdef".data := by
  induction bs with
  | nil => simp [hexCharsOfBytes]
  | cons b rest ih =>
    intro c hc
    simp only [hexCharsOfBytes, List.flatMap_cons, List.cons_append,
      List.nil_append] at hc
    have hb0 : b < 256 := hb b (List.mem_cons_self _ _)
    rcases List.mem_cons.mp hc with h1 | hc
    · exact h1 ▸ hexDigit_mem _ (by omega)
    rcases List.mem_cons.mp hc with h2 | hc
    · exact h2 ▸ hexDigit_mem _ (by omega)
    exact ih (fun x hx => hb x (List.mem_cons_of_mem _ hx)) c hc

/-- C5: event-id construction.  An EVM native transfer (and a streaming
token log) uses `eth:` followed by the `0x`-prefixed 64-lowercase-hex-char
transaction hash; a polling token log appends `:log<log_index>` with the
index rendered in decimal, defaulting to 0 when missing; a Solana event is
`sol:` followed by the base58 signature. -/
theorem event_id_spec :
    (∀ txh : List Nat, txh.length = 32 → (∀ b ∈ txh, b < 256) →
      eth_event_id txh = "eth:" ++ hexOfBytes txh
      ∧ (hexOfBytes txh).data = '0' :: 'x' :: hexCharsOfBytes txh
      ∧ (hexCharsOfBytes txh).length = 64
      ∧ (∀ c ∈ hexCharsOfBytes txh, c ∈ "0123456789abcdef".data))
    ∧ (∀ (txh : List Nat) (i : Nat),
      eth_log_event_id txh (some i) = eth_event_id txh ++ ":log" ++ toString i
      ∧ eth_log_event_id txh none = eth_event_id txh ++ ":log0")
    ∧ (∀ signature : String, sol_event_id signature = "sol:" ++ signature) := by
  refine ⟨fun txh hlen hb => ⟨rfl, rfl, ?_, hexCharsOfBytes_mem txh hb⟩,
    fun txh i => ⟨?_, ?_⟩, fun _ => rfl⟩
  · rw [hexCharsOfBytes_length, hlen]
  · show "eth:" ++ hexOfBytes txh ++ ":log" ++ toString i
      = ("eth:" ++ hexOfBytes txh) ++ ":log" ++ toString i
    rfl
  · show "eth:" ++ hexOfBytes txh ++ ":log" ++ "0"
      = ("eth:" ++ hexOfBytes txh) ++ ":log0"
    have h1 : (":log" : String) ++ "0" = ":log0" := rfl
    rw [← h1, String.append_assoc]

/-- Witness for C5 at the spec's concrete hash
`0x1234…abcd`, log index 7, and a sample signature. -/
theorem event_id_spec_witness :
    eth_event_id
        [0x12, 0x34, 0x56, 0x78, 0x90, 0x12, 0x34, 0x56, 0x78, 0x90,
         0x12, 0x34, 0x56, 0x78, 0x90, 0x12, 0x34, 0x56, 0x78, 0x90,
         0x12, 0x34, 0x56, 0x78, 0x90, 0x12, 0x34, 0x56, 0x78, 0x90,
         0xab, 0xcd]
      = "eth:" ++ hexOfBytes
        [0x12, 0x34, 0x56, 0x78, 0x90, 0x12, 0x34, 0x56, 0x78, 0x90,
         0x12, 0x34, 0x56, 0x78, 0x90, 0x12, 0x34, 0x56, 0x78, 0x90,
         0x12, 0x34, 0x56, 0x78, 0x90, 0x12, 0x34, 0x56, 0x78, 0x90,
         0xab, 0xcd]
    ∧ eth_event_id
        [0x12, 0x34, 0x56, 0x78, 0x90, 0x12, 0x34, 0x56, 0x78, 0x90,
         0x12, 0x34, 0x56, 0x78, 0x90, 0x12, 0x34, 0x56, 0x78, 0x90,
         0x12, 0x34, 0x56, 0x78, 0x90, 0x12, 0x34, 0x56, 0x78, 0x90,
         0xab, 0xcd]
      = "eth:0x123456789012345678901234567890123456789012345678901234567890abcd"
    ∧ eth_log_event_id [0x01, 0x02] (some 7)
      = eth_event_id [0x01, 0x02] ++ ":log" ++ toString 7
    ∧ eth_log_event_id [0x01, 0x02] none = eth_event_id [0x01, 0x02] ++ ":log0"
    ∧ sol_event_id "5wLkBJVb" = "sol:5wLkBJVb" :=
  ⟨(event_id_spec.1 _ (by decide) (by decide)).1, by decide,
   (event_id_spec.2.1 [0x01, 0x02] 7).1, (event_id_spec.2.1 [0x01, 0x02] 7).2,
   event_id_spec.2.2 "5wLkBJVb"⟩

/-! ## C4 — streaming token-transfer decoding -/

/-- C4: a streaming-mode EVM log with exactly 3 topics whose decoded
`topics[1]` or `topics[2]` address is watched yields exactly one
`erc20_transfer` event whose `from`/`to` are the decoded low-20-byte
addresses and whose `value` is the decimal rendering of the big-endian
interpretation of `log.data`; re-processing the same log afterwards
publishes nothing. -/
theorem track_erc20_transfer_spec (watched : List (List Nat)) (network : String)
    (fetchTs : Nat → Option Nat) (st : TrackerState) (log : EthLog)
    (t0 t1 t2 txh : List Nat)
    (htop : log.topics = [t0, t1, t2])
    (hw : addressFromTopic t1 ∈ watched ∨ addressFromTopic t2 ∈ watched)
    (htx : log.transaction_hash = some txh)
    (hdata : log.data.length ≤ 32)
    (hfresh : eth_event_id txh ∉ st.processed_txs) :
    (∃ ts, (track_erc20_log_step watched network fetchTs st log).1
      = .ok (some
        { event_id := eth_event_id txh, chain := "ethereum",
          network := network, tx_hash := hexOfBytes txh, timestamp := ts,
          «from» := hexOfBytes (addressFromTopic t1),
          «to» := hexOfBytes (addressFromTopic t2),
          value := toString (beNat log.data), event_type := "erc20_transfer",
          slot := none, token := none }))
    ∧ (track_erc20_log_step watched network fetchTs st log).2.processed_txs
        = eth_event_id txh :: st.processed_txs
    ∧ (track_erc20_log_step watched network fetchTs
        ((track_erc20_log_step watched network fetchTs st log).2) log).1
        = .ok none := by
  have hcond : (watched.contains (addressFromTopic t1)
      || watched.contains (addressFromTopic t2)) = true := by
    rcases hw with h | h <;> simp [h]
  have hdec : u256_from_big_endian log.data = some (beNat log.data) := by
    rw [u256_from_big_endian, if_pos hdata]
  rcases hbn : log.block_number with _ | bn
  · have hstep : track_erc20_log_step watched network fetchTs st log
        = (.ok (some
            { event_id := eth_event_id txh, chain := "ethereum",
              network := network, tx_hash := hexOfBytes txh, timestamp := "",
              «from» := hexOfBytes (addressFromTopic t1),
              «to» := hexOfBytes (addressFromTopic t2),
              value := toString (beNat log.data), event_type := "erc20_transfer",
              slot := none, token := none }),
           { st with processed_txs := eth_event_id txh :: st.processed_txs }) := by
      simp only [track_erc20_log_step, htop, htx, hbn, Option.getD_some, hcond,
        hdec, eq_self_iff_true, if_true]
      rw [if_neg hfresh]
    refine ⟨⟨"", by rw [hstep]⟩, by rw [hstep], ?_⟩
    rw [hstep]
    simp only [track_erc20_log_step, htop, htx, hbn, Option.getD_some, hcond,
      hdec, eq_self_iff_true, if_true]
    rw [if_pos (List.mem_cons_self _ _)]
  · rcases hts : fetchTs bn with _ | ts
    · have hstep : track_erc20_log_step watched network fetchTs st log
          = (.ok (some
              { event_id := eth_event_id txh, chain := "ethereum",
                network := network, tx_hash := hexOfBytes txh, timestamp := "",
                «from» := hexOfBytes (addressFromTopic t1),
                «to» := hexOfBytes (addressFromTopic t2),
                value := toString (beNat log.data),
                event_type := "erc20_transfer", slot := none, token := none }),
             { st with processed_txs := eth_event_id txh :: st.processed_txs,
                       last_eth_block := advance_watermark st.last_eth_block bn }) := by
        simp only [track_erc20_log_step, htop, htx, hbn, hts, Option.getD_some,
          hcond, hdec, eq_self_iff_true, if_true]
        rw [if_neg hfresh]
      refine ⟨⟨"", by rw [hstep]⟩, by rw [hstep], ?_⟩
      rw [hstep]
      simp only [track_erc20_log_step, htop, htx, hbn, hts, Option.getD_some,
        hcond, hdec, eq_self_iff_true, if_true]
      rw [if_pos (List.mem_cons_self _ _)]
    · have hstep : track_erc20_log_step watched network fetchTs st log
          = (.ok (some
              { event_id := eth_event_id txh, chain := "ethereum",
                network := network, tx_hash := hexOfBytes txh,
                timestamp := toString ts,
                «from» := hexOfBytes (addressFromTopic t1),
                «to» := hexOfBytes (addressFromTopic t2),
                value := toString (beNat log.data),
                event_type := "erc20_transfer", slot := none, token := none }),
             { st with processed_txs := eth_event_id txh :: st.processed_txs,
                       last_eth_block := advance_watermark st.last_eth_block bn }) := by
        simp only [track_erc20_log_step, htop, htx, hbn, hts, Option.getD_some,
          hcond, hdec, eq_self_iff_true, if_true]
        rw [if_neg hfresh]
      refine ⟨⟨toString ts, by rw [hstep]⟩, by rw [hstep], ?_⟩
      rw [hstep]
      simp only [track_erc20_log_step, htop, htx, hbn, hts, Option.getD_some,
        hcond, hdec, eq_self_iff_true, if_true]
      rw [if_pos (List.mem_cons_self _ _)]

/-- Witness for C4, the spec's concrete scenario: topics
`[0x00…00, pad(0x…01), pad(0x…02)]`, data 31 zero bytes then `0x2A`,
transaction hash `0x0101…01`. -/
theorem track_erc20_transfer_spec_witness :
    (track_erc20_log_step [List.replicate 19 0 ++ [1]] "mainnet" (fun _ => none)
        ⟨[], none, none⟩
        { topics := [List.replicate 32 0, List.replicate 31 0 ++ [1],
                     List.replicate 31 0 ++ [2]],
          data := List.replicate 31 0 ++ [42],
          transaction_hash := some (List.replicate 32 1),
          block_number := none, log_index := none,
          address := List.replicate 20 0 }).2.processed_txs
      = ["eth:0x0101010101010101010101010101010101010101010101010101010101010101"]
    ∧ (track_erc20_log_step [List.replicate 19 0 ++ [1]] "mainnet" (fun _ => none)
        ⟨[], none, none⟩
        { topics := [List.replicate 32 0, List.replicate 31 0 ++ [1],
                     List.replicate 31 0 ++ [2]],
          data := List.replicate 31 0 ++ [42],
          transaction_hash := some (List.replicate 32 1),
          block_number := none, log_index := none,
          address := List.replicate 20 0 }).1
      = .ok (some
        { event_id :=
            "eth:0x0101010101010101010101010101010101010101010101010101010101010101",
          chain := "ethereum", network := "mainnet",
          tx_hash :=
            "0x0101010101010101010101010101010101010101010101010101010101010101",
          timestamp := "",
          «from» := "0x0000000000000000000000000000000000000001",
          «to» := "0x0000000000000000000000000000000000000002",
          value := "42", event_type := "erc20_transfer",
          slot := none, token := none }) := by
  constructor
  · have h := (track_erc20_transfer_spec [List.replicate 19 0 ++ [1]] "mainnet"
      (fun _ => none) ⟨[], none, none⟩
      { topics := [List.replicate 32 0, List.replicate 31 0 ++ [1],
                   List.replicate 31 0 ++ [2]],
        data := List.replicate 31 0 ++ [42],
        transaction_hash := some (List.replicate 32 1),
        block_number := none, log_index := none,
        address := List.replicate 20 0 }
      (List.replicate 32 0) (List.replicate 31 0 ++ [1])
      (List.replicate 31 0 ++ [2]) (List.replicate 32 1)
      rfl (Or.inl (by decide)) rfl (by decide) (by decide)).2.1
    rw [h]
    decide
  · rfl

/-! ## C7 — Solana transaction processing -/

/-- C7: a Solana transaction whose static account-key list contains the
watched pubkey, with a fresh event id, yields exactly one `solana_tx`
event with empty `from`/`to`/`value`, the transaction's slot, the base58
signature as `tx_hash` and the RFC-3339 block time (0 when absent); a
transaction whose keys do not contain the watched pubkey yields no
event. -/
theorem process_solana_transaction_spec (network watched signature : String)
    (tx : SolTx) (keys : List String) (st : TrackerState)
    (hkeys : tx.account_keys = some keys)
    (hfresh : sol_event_id signature ∉ st.processed_txs) :
    (watched ∈ keys →
      (process_solana_transaction network watched signature (some tx) st).1
        = .ok (some
          { event_id := sol_event_id signature, chain := "solana",
            network := network, tx_hash := signature,
            timestamp := rfc3339 (tx.block_time.getD 0),
            «from» := "", «to» := "", value := "", event_type := "solana_tx",
            slot := some tx.slot, token := none })
      ∧ (process_solana_transaction network watched signature (some tx) st).2.processed_txs
          = sol_event_id signature :: st.processed_txs
      ∧ (process_solana_transaction network watched signature (some tx)
          ((process_solana_transaction network watched signature (some tx) st).2)).1
          = .ok none)
    ∧ (watched ∉ keys →
      (process_solana_transaction network watched signature (some tx) st).1
        = .ok none) := by
  constructor
  · intro hw
    have hmem : keys.contains watched = true := by simp [hw]
    have hstep : process_solana_transaction network watched signature (some tx) st
        = (.ok (some
            { event_id := sol_event_id signature, chain := "solana",
              network := network, tx_hash := signature,
              timestamp := rfc3339 (tx.block_time.getD 0),
              «from» := "", «to» := "", value := "", event_type := "solana_tx",
              slot := some tx.slot, token := none }),
           { st with processed_txs := sol_event_id signature :: st.processed_txs,
                     last_sol_slot := advance_watermark st.last_sol_slot tx.slot }) := by
      simp only [process_solana_transaction, hkeys, hmem, eq_self_iff_true, if_true]
      rw [if_neg hfresh]
    refine ⟨by rw [hstep], by rw [hstep], ?_⟩
    rw [hstep]
    simp only [process_solana_transaction]
    rw [if_pos (List.mem_cons_self _ _)]
  · intro hw
    have hmem : keys.contains watched = false := by
      simpa using hw
    simp only [process_solana_transaction, hkeys, hmem, Bool.false_eq_true,
      if_false]
    rw [if_neg hfresh]

/-- Witness for C7: a transaction at slot 5 with absent block time touching
the watched pubkey, and one not touching it. -/
theorem process_solana_transaction_spec_witness :
    ("w1" ∈ ["k0", "w1"])
    ∧ (process_solana_transaction "devnet" "w1" "sig1"
        (some { slot := 5, block_time := none, account_keys := some ["k0", "w1"] })
        ⟨[], none, none⟩).1
      = .ok (some
        { event_id := "sol:sig1", chain := "solana", network := "devnet",
          tx_hash := "sig1", timestamp := "1970-01-01T00:00:00+00:00",
          «from» := "", «to» := "", value := "", event_type := "solana_tx",
          slot := some 5, token := none })
    ∧ (process_solana_transaction "devnet" "w2" "sig1"
        (some { slot := 5, block_time := none, account_keys := some ["k0", "w1"] })
        ⟨[], none, none⟩).1
      = .ok none := by
  refine ⟨by decide, ?_, ?_⟩
  · have h := ((process_solana_transaction_spec "devnet" "w1" "sig1"
      { slot := 5, block_time := none, account_keys := some ["k0", "w1"] }
      ["k0", "w1"] ⟨[], none, none⟩ rfl (by decide)).1 (by decide)).1
    rw [h]
    rfl
  · exact (process_solana_transaction_spec "devnet" "w2" "sig1"
      { slot := 5, block_time := none, account_keys := some ["k0", "w1"] }
      ["k0", "w1"] ⟨[], none, none⟩ rfl (by decide)).2 (by decide)

/-! ## C9 — value decode panics on over-long data -/

/-- C9: `U256::from_big_endian` is total only for buffers of at most 32
bytes; a matching 3-topic Transfer log whose `data` exceeds 32 bytes makes
both the streaming tracker and the polling receipt scan panic (modelled as
`Except.error`) instead of logging and skipping the record. -/
theorem u256_overlong_data_panics :
    (∀ bs : List Nat, 32 < bs.length → u256_from_big_endian bs = none)
    ∧ (∀ (watched : List (List Nat)) (network : String)
        (fetchTs : Nat → Option Nat) (st : TrackerState) (log : EthLog)
        (t0 t1 t2 : List Nat),
      log.topics = [t0, t1, t2] →
      (addressFromTopic t1 ∈ watched ∨ addressFromTopic t2 ∈ watched) →
      eth_event_id (log.transaction_hash.getD (List.replicate 32 0))
        ∉ st.processed_txs →
      32 < log.data.length →
      (track_erc20_log_step watched network fetchTs st log).1 = .error ())
    ∧ (∀ (watched : List (List Nat)) (network : String) (txHash : List Nat)
        (blockTimestamp : Nat) (st : TrackerState) (log : EthLog)
        (t1 t2 : List Nat),
      log.topics = [transferTopic0, t1, t2] →
      (watched.isEmpty = true ∨ addressFromTopic t1 ∈ watched
        ∨ addressFromTopic t2 ∈ watched) →
      eth_log_event_id txHash log.log_index ∉ st.processed_txs →
      32 < log.data.length →
      (poll_erc20_log_step watched network txHash blockTimestamp st log).1
        = .error ()) := by
  refine ⟨fun bs h => by rw [u256_from_big_endian, if_neg (by omega)], ?_, ?_⟩
  · intro watched network fetchTs st log t0 t1 t2 htop hw hfresh hlen
    have hcond : (watched.contains (addressFromTopic t1)
        || watched.contains (addressFromTopic t2)) = true := by
      rcases hw with h | h <;> simp [h]
    have hdec : u256_from_big_endian log.data = none := by
      rw [u256_from_big_endian, if_neg (by omega)]
    simp only [track_erc20_log_step, htop, hcond, hdec, eq_self_iff_true, if_true]
    rw [if_neg hfresh]
  · intro watched network txHash blockTimestamp st log t1 t2 htop hw hfresh hlen
    have hcond : (watched.isEmpty || watched.contains (addressFromTopic t1)
        || watched.contains (addressFromTopic t2)) = true := by
      rcases hw with h | h | h <;> simp [h]
    have hdec : u256_from_big_endian log.data = none := by
      rw [u256_from_big_endian, if_neg (by omega)]
    simp only [poll_erc20_log_step, htop, hcond, hdec, eq_self_iff_true, if_true,
      if_pos rfl]
    rw [if_neg hfresh]

/-- Witness for C9: 33-byte data on a matched log panics on both paths. -/
theorem u256_overlong_data_panics_witness :
    u256_from_big_endian (List.replicate 33 0) = none
    ∧ (track_erc20_log_step [List.replicate 19 0 ++ [1]] "mainnet" (fun _ => none)
        ⟨[], none, none⟩
        { topics := [List.replicate 32 0, List.replicate 31 0 ++ [1],
                     List.replicate 31 0 ++ [2]],
          data := List.replicate 33 0,
          transaction_hash := some (List.replicate 32 1),
          block_number := none, log_index := none,
          address := List.replicate 20 0 }).1
      = .error ()
    ∧ (poll_erc20_log_step [] "mainnet" (List.replicate 32 1) 0
        ⟨[], none, none⟩
        { topics := [transferTopic0, List.replicate 31 0 ++ [1],
                     List.replicate 31 0 ++ [2]],
          data := List.replicate 33 0,
          transaction_hash := none, block_number := none, log_index := none,
          address := List.replicate 20 0 }).1
      = .error () :=
  ⟨u256_overlong_data_panics.1 (List.replicate 33 0) (by decide),
   u256_overlong_data_panics.2.1 _ "mainnet" _ _ _ _ _ _ rfl
     (Or.inl (by decide)) (by decide) (by decide),
   u256_overlong_data_panics.2.2 [] "mainnet" _ 0 _ _ _ _ rfl
     (Or.inl rfl) (by decide) (by decide)⟩

/-! ## C10 — zero-sender filter asymmetry -/

/-- C10: the non-null-sender filter exists only in streaming mode: the
streaming native tracker never matches on the `from` side when
`tx.from = 0x00…00` (so such a transaction with an unmatched `to` yields
no event even if the zero address is watched), while the polling scan
emits a native `transfer` event for a zero-sender transaction whenever its
`from` is watched or the watched list is empty. -/
theorem zero_sender_filter_spec :
    (∀ (watched : List (List Nat)) (network : String) (blockTimestamp : Nat)
        (st : TrackerState) (tx : EthTx),
      tx.«from» = zeroAddress →
      (tx.«to» = none ∨ ∀ a, tx.«to» = some a → a ∉ watched) →
      native_tx_step watched network blockTimestamp st tx = (none, st))
    ∧ (∀ (watched : List (List Nat)) (network : String) (blockTimestamp : Nat)
        (st : TrackerState) (tx : EthTx),
      tx.«from» = zeroAddress →
      (watched = [] ∨ zeroAddress ∈ watched) →
      eth_event_id tx.hash ∉ st.processed_txs →
      ∃ e, (poll_native_tx_step watched network blockTimestamp st tx).1 = some e
        ∧ e.event_type = "transfer"
        ∧ e.«from» = hexOfBytes zeroAddress) := by
  constructor
  · intro watched network blockTimestamp st tx hfrom hto
    rcases hto2 : tx.«to» with _ | a
    · simp [native_tx_step, hfrom, hto2]
    · have ha : a ∉ watched := by
        rcases hto with h | h
        · rw [hto2] at h; cases h
        · exact h a hto2
      simp [native_tx_step, hfrom, hto2, ha]
  · intro watched network blockTimestamp st tx hfrom hw hfresh
    have hcond : (watched.isEmpty || watched.contains tx.«from») = true := by
      rcases hw with h | h
      · simp [h]
      · simp [hfrom, h]
    have hstep : poll_native_tx_step watched network blockTimestamp st tx
        = (some
            { event_id := eth_event_id tx.hash, chain := "ethereum",
              network := network, tx_hash := hexOfBytes tx.hash,
              timestamp := toString blockTimestamp,
              «from» := hexOfBytes tx.«from»,
              «to» := hexOfBytes (tx.«to».getD zeroAddress),
              value := toString tx.value, event_type := "transfer",
              slot := none, token := none },
           { st with processed_txs := eth_event_id tx.hash :: st.processed_txs }) := by
      simp only [poll_native_tx_step, hcond, Bool.true_or, eq_self_iff_true,
        if_true]
      rw [if_neg hfresh]
    refine ⟨_, by rw [hstep], rfl, by rw [hfrom]⟩

/-- Witness for C10: a zero-sender transaction with no recipient, the zero
address watched: the streaming tracker drops it, the polling scan emits. -/
theorem zero_sender_filter_spec_witness :
    native_tx_step [zeroAddress] "mainnet" 7 ⟨[], none, none⟩
        { hash := List.replicate 32 3, «from» := zeroAddress,
          «to» := none, value := 9 }
      = (none, ⟨[], none, none⟩)
    ∧ ∃ e, (poll_native_tx_step [zeroAddress] "mainnet" 7 ⟨[], none, none⟩
        { hash := List.replicate 32 3, «from» := zeroAddress,
          «to» := none, value := 9 }).1 = some e
      ∧ e.event_type = "transfer"
      ∧ e.«from» = hexOfBytes zeroAddress :=
  ⟨zero_sender_filter_spec.1 [zeroAddress] "mainnet" 7 ⟨[], none, none⟩
     { hash := List.replicate 32 3, «from» := zeroAddress, «to» := none, value := 9 }
     rfl (Or.inl rfl),
   zero_sender_filter_spec.2 [zeroAddress] "mainnet" 7 ⟨[], none, none⟩
     { hash := List.replicate 32 3, «from» := zeroAddress, «to» := none, value := 9 }
     rfl (Or.inr (by decide)) (by decide)⟩

theorem advance_watermark_mono (last : Option Nat) (v : Nat) :
    advance_watermark last v = last
    ∨ watermarkLt last (advance_watermark last v) := by
  match last with
  | none => exact Or.inr trivial
  | some prev =>
    dsimp only [advance_watermark]
    by_cases h : v > prev
    · rw [if_pos h]
      exact Or.inr h
    · rw [if_neg h]
      exact Or.inl rfl

theorem track_erc20_last_eth (watched : List (List Nat)) (network : String)
    (fetchTs : Nat → Option Nat) (st : TrackerState) (log : EthLog) :
    (track_erc20_log_step watched network fetchTs st log).2.last_eth_block
      = st.last_eth_block
    ∨ watermarkLt st.last_eth_block
        (track_erc20_log_step watched network fetchTs st log).2.last_eth_block := by
  unfold track_erc20_log_step
  dsimp only
  repeat' split
  all_goals dsimp only
  all_goals first
    | exact Or.inl rfl
    | exact advance_watermark_mono _ _

theorem native_tx_step_last_eth (watched : List (List Nat)) (network : String)
    (blockTimestamp : Nat) (st : TrackerState) (tx : EthTx) :
    (native_tx_step watched network blockTimestamp st tx).2.last_eth_block
      = st.last_eth_block := by
  unfold native_tx_step
  dsimp only
  repeat' split
  all_goals rfl

theorem process_solana_last_sol (network watched signature : String)
    (txFetch : Option SolTx) (st : TrackerState) :
    (process_solana_transaction network watched signature txFetch st).2.last_sol_slot
      = st.last_sol_slot
    ∨ watermarkLt st.last_sol_slot
        (process_solana_transaction network watched signature txFetch st).2.last_sol_slot := by
  unfold process_solana_transaction
  dsimp only
  repeat' split
  all_goals dsimp only
  all_goals first
    | exact Or.inl rfl
    | exact advance_watermark_mono _ _

/-- The transaction fold of the native block step never touches the
watermark. -/
theorem native_fold_last_eth (watched : List (List Nat)) (network : String)
    (blockTimestamp : Nat) (txs : List EthTx) :
    ∀ acc : List Event × TrackerState,
      (txs.foldl (fun acc tx =>
        let r := native_tx_step watched network blockTimestamp acc.2 tx
        (acc.1 ++ r.1.toList, r.2)) acc).2.last_eth_block
      = acc.2.last_eth_block := by
  induction txs with
  | nil => intro acc; rfl
  | cons tx rest ih =>
    intro acc
    rw [List.foldl_cons, ih]
    exact native_tx_step_last_eth watched network blockTimestamp acc.2 tx

/-- The streaming native block step's EVM watermark only stays or
advances. -/
theorem track_native_block_last_eth (watched : List (List Nat)) (network : String)
    (st : TrackerState) (block : EthBlock) :
    (track_native_block_step watched network st block).2.last_eth_block
      = st.last_eth_block
    ∨ watermarkLt st.last_eth_block
        (track_native_block_step watched network st block).2.last_eth_block := by
  unfold track_native_block_step
  dsimp only
  rw [native_fold_last_eth watched network block.timestamp block.transactions
    ([], st)]
  exact advance_watermark_mono _ _

/-- C8: every watermark update either leaves the cell unchanged or
replaces it by a strictly greater value — across the streaming token
tracker, the streaming native block step, the Solana step, and the
non-regression polling iteration — with the single exception of the EVM
polling regression branch, which rewinds to `current − 10` and logs the
regression. -/
theorem watermark_monotonic_spec :
    (∀ (last : Option Nat) (v : Nat),
      advance_watermark last v = last
      ∨ watermarkLt last (advance_watermark last v))
    ∧ (∀ (watched : List (List Nat)) (network : String)
        (fetchTs : Nat → Option Nat) (st : TrackerState) (log : EthLog),
      (track_erc20_log_step watched network fetchTs st log).2.last_eth_block
        = st.last_eth_block
      ∨ watermarkLt st.last_eth_block
          (track_erc20_log_step watched network fetchTs st log).2.last_eth_block)
    ∧ (∀ (watched : List (List Nat)) (network : String) (st : TrackerState)
        (block : EthBlock),
      (track_native_block_step watched network st block).2.last_eth_block
        = st.last_eth_block
      ∨ watermarkLt st.last_eth_block
          (track_native_block_step watched network st block).2.last_eth_block)
    ∧ (∀ (network watched signature : String) (txFetch : Option SolTx)
        (st : TrackerState),
      (process_solana_transaction network watched signature txFetch st).2.last_sol_slot
        = st.last_sol_slot
      ∨ watermarkLt st.last_sol_slot
          (process_solana_transaction network watched signature txFetch st).2.last_sol_slot)
    ∧ (∀ current prev : Nat, prev ≤ current →
      (poll_eth_iteration current (some prev)).regressionLogged = false
      ∧ ((poll_eth_iteration current (some prev)).newLast = some prev
        ∨ watermarkLt (some prev) (poll_eth_iteration current (some prev)).newLast))
    ∧ (∀ current : Nat,
      watermarkLt none (poll_eth_iteration current none).newLast)
    ∧ (∀ current prev : Nat, current < prev →
      (poll_eth_iteration current (some prev)).regressionLogged = true
      ∧ (poll_eth_iteration current (some prev)).rewoundTo
          = some (current - 10)) := by
  refine ⟨advance_watermark_mono, track_erc20_last_eth,
    track_native_block_last_eth, process_solana_last_sol, ?_, ?_, ?_⟩
  · intro current prev hle
    rw [poll_eth_iteration_noreg current prev hle]
    have hf := finishPollIteration_fields current prev (some prev) none false hle
    refine ⟨hf.2.2.1, ?_⟩
    rw [hf.2.2.2]
    rcases Nat.lt_or_ge prev current with h | h
    · exact Or.inr h
    · exact Or.inl (by rw [show prev = current by omega])
  · intro current
    rw [poll_eth_iteration_none]
    rw [(finishPollIteration_fields current _ none none false
      (by split <;> omega)).2.2.2]
    trivial
  · intro current prev hreg
    rw [poll_eth_iteration_reg current prev hreg]
    have hf := finishPollIteration_fields current (current - 10)
      (some (current - 10)) (some (current - 10)) true (by omega)
    exact ⟨hf.2.2.1, hf.2.1⟩

/-- Witness for C8 at concrete watermarks: an advancing update, a
non-regressing poll (`C = 5, last = 3`), and the regression scenario
(`C = 50, last = 100`). -/
theorem watermark_monotonic_spec_witness :
    (advance_watermark (some 3) 5 = some 3
      ∨ watermarkLt (some 3) (advance_watermark (some 3) 5))
    ∧ ((poll_eth_iteration 5 (some 3)).regressionLogged = false
      ∧ ((poll_eth_iteration 5 (some 3)).newLast = some 3
        ∨ watermarkLt (some 3) (poll_eth_iteration 5 (some 3)).newLast))
    ∧ ((poll_eth_iteration 50 (some 100)).regressionLogged = true
      ∧ (poll_eth_iteration 50 (some 100)).rewoundTo = some 40) :=
  ⟨watermark_monotonic_spec.1 (some 3) 5,
   watermark_monotonic_spec.2.2.2.2.1 5 3 (by omega),
   watermark_monotonic_spec.2.2.2.2.2.2 50 100 (by omega)⟩

/-! ## C1 — at-most-once publication per event id -/

/-- Per-record step invariant: an event actually published by a step has
an id that was not yet in the dedup set and is in it afterwards, and the
dedup set only grows. -/
theorem step_spec (watched : List (List Nat)) (network : String)
    (st : TrackerState) (r : Record) :
    (∀ e : Event, (step watched network st r).1 = .ok (some e) →
      e.event_id ∉ st.processed_txs
      ∧ e.event_id ∈ (step watched network st r).2.processed_txs)
    ∧ st.processed_txs ⊆ (step watched network st r).2.processed_txs := by
  cases r with
  | erc20Stream fetchTs log =>
    dsimp only [step]
    unfold track_erc20_log_step
    dsimp only
    repeat' split
    all_goals dsimp only
    all_goals refine ⟨fun e h => ?_, ?_⟩
    all_goals first
      | exact fun x hx => hx
      | exact List.subset_cons_self _ _
      | exact Except.noConfusion h
      | exact Except.noConfusion h fun h1 => Option.noConfusion h1
      | (injection h with h1; injection h1 with h2; subst h2;
         exact ⟨by assumption, List.mem_cons_self _ _⟩)
  | nativeStream blockTimestamp tx =>
    dsimp only [step]
    unfold native_tx_step
    dsimp only
    repeat' split
    all_goals dsimp only
    all_goals refine ⟨fun e h => ?_, ?_⟩
    all_goals first
      | exact fun x hx => hx
      | exact List.subset_cons_self _ _
      | exact Except.noConfusion h
      | exact Except.noConfusion h fun h1 => Option.noConfusion h1
      | (injection h with h1; injection h1 with h2; subst h2;
         exact ⟨by assumption, List.mem_cons_self _ _⟩)
  | pollTx blockTimestamp tx =>
    dsimp only [step]
    unfold poll_native_tx_step
    dsimp only
    repeat' split
    all_goals dsimp only
    all_goals refine ⟨fun e h => ?_, ?_⟩
    all_goals first
      | exact fun x hx => hx
      | exact List.subset_cons_self _ _
      | exact Except.noConfusion h
      | exact Except.noConfusion h fun h1 => Option.noConfusion h1
      | (injection h with h1; injection h1 with h2; subst h2;
         exact ⟨by assumption, List.mem_cons_self _ _⟩)
  | pollLog txHash blockTimestamp log =>
    dsimp only [step]
    unfold poll_erc20_log_step
    dsimp only
    repeat' split
    all_goals dsimp only
    all_goals refine ⟨fun e h => ?_, ?_⟩
    all_goals first
      | exact fun x hx => hx
      | exact List.subset_cons_self _ _
      | exact Except.noConfusion h
      | exact Except.noConfusion h fun h1 => Option.noConfusion h1
      | (injection h with h1; injection h1 with h2; subst h2;
         exact ⟨by assumption, List.mem_cons_self _ _⟩)
  | solanaSig w signature txFetch =>
    dsimp only [step]
    unfold process_solana_transaction
    dsimp only
    repeat' split
    all_goals dsimp only
    all_goals refine ⟨fun e h => ?_, ?_⟩
    all_goals first
      | exact fun x hx => hx
      | exact List.subset_cons_self _ _
      | exact Except.noConfusion h
      | exact Except.noConfusion h fun h1 => Option.noConfusion h1
      | (injection h with h1; injection h1 with h2; subst h2;
         exact ⟨by assumption, List.mem_cons_self _ _⟩)

/-- Trace invariant: published ids are pairwise distinct, each published
id is fresh relative to the initial dedup set and recorded in the final
one, and the dedup set only grows. -/
theorem runTrace_invariant (watched : List (List Nat)) (network : String) :
    ∀ (records : List Record) (st : TrackerState),
      ((runTrace watched network st records).1.map Event.event_id).Nodup
      ∧ (∀ e ∈ (runTrace watched network st records).1,
          e.event_id ∉ st.processed_txs
          ∧ e.event_id ∈ (runTrace watched network st records).2.processed_txs)
      ∧ st.processed_txs ⊆ (runTrace watched network st records).2.processed_txs := by
  intro records
  induction records with
  | nil =>
    intro st
    exact ⟨List.nodup_nil, by simp [runTrace], fun x hx => hx⟩
  | cons r rs ih =>
    intro st
    have hs := step_spec watched network st r
    obtain ⟨ihn, ihm, ihsub⟩ := ih (step watched network st r).2
    rcases hres : (step watched network st r).1 with u | o
    · simp only [runTrace, hres]
      exact ⟨ihn, fun e he => ⟨fun hc => (ihm e he).1 (hs.2 hc), (ihm e he).2⟩,
        fun x hx => ihsub (hs.2 hx)⟩
    · rcases o with _ | e
      · simp only [runTrace, hres]
        exact ⟨ihn, fun e he => ⟨fun hc => (ihm e he).1 (hs.2 hc), (ihm e he).2⟩,
          fun x hx => ihsub (hs.2 hx)⟩
      · simp only [runTrace, hres, List.map_cons]
        have hpub := hs.1 e hres
        refine ⟨List.nodup_cons.mpr ⟨?_, ihn⟩, ?_, fun x hx => ihsub (hs.2 hx)⟩
        · intro hmem
          obtain ⟨e', he', heq⟩ := List.mem_map.mp hmem
          exact (ihm e' he').1 (by rw [heq]; exact hpub.2)
        · intro e2 h2
          rcases List.mem_cons.mp h2 with h2 | h2
          · subst h2
            exact ⟨hpub.1, ihsub hpub.2⟩
          · exact ⟨fun hc => (ihm e2 h2).1 (hs.2 hc), (ihm e2 h2).2⟩

/-- C1: across any sequence of records processed through any of the
ingestion paths against the shared dedup set, at most one publish happens
per `event_id` (the published id list has no duplicates), and an id
already in the dedup set is never published again. -/
theorem dedup_publish_once (watched : List (List Nat)) (network : String)
    (st : TrackerState) (records : List Record) :
    ((runTrace watched network st records).1.map Event.event_id).Nodup
    ∧ ∀ id ∈ st.processed_txs,
        id ∉ (runTrace watched network st records).1.map Event.event_id := by
  obtain ⟨hn, hm, _⟩ := runTrace_invariant watched network records st
  refine ⟨hn, fun id hid hmem => ?_⟩
  obtain ⟨e, he, heq⟩ := List.mem_map.mp hmem
  exact (hm e he).1 (by rw [heq]; exact hid)

/-- Witness for C1: a trace with a duplicated polling transaction and a
Solana signature whose id is already in the dedup set publishes the
transaction exactly once and the known id never. -/
theorem dedup_publish_once_witness :
    (((runTrace [] "mainnet" ⟨["sol:s"], none, none⟩
        [Record.pollTx 1 ⟨List.replicate 32 2, List.replicate 20 1, none, 5⟩,
         Record.pollTx 1 ⟨List.replicate 32 2, List.replicate 20 1, none, 5⟩,
         Record.solanaSig "w" "s" (some ⟨9, none, some ["w"]⟩)]).1.map
      Event.event_id).Nodup
    ∧ ∀ id ∈ (⟨["sol:s"], none, none⟩ : TrackerState).processed_txs,
        id ∉ ((runTrace [] "mainnet" ⟨["sol:s"], none, none⟩
        [Record.pollTx 1 ⟨List.replicate 32 2, List.replicate 20 1, none, 5⟩,
         Record.pollTx 1 ⟨List.replicate 32 2, List.replicate 20 1, none, 5⟩,
         Record.solanaSig "w" "s" (some ⟨9, none, some ["w"]⟩)]).1.map
      Event.event_id)) ∧
    ((runTrace [] "mainnet" ⟨["sol:s"], none, none⟩
        [Record.pollTx 1 ⟨List.replicate 32 2, List.replicate 20 1, none, 5⟩,
         Record.pollTx 1 ⟨List.replicate 32 2, List.replicate 20 1, none, 5⟩,
         Record.solanaSig "w" "s" (some ⟨9, none, some ["w"]⟩)]).1.map
      Event.event_id)
      = ["eth:0x0202020202020202020202020202020202020202020202020202020202020202"] :=
  ⟨dedup_publish_once [] "mainnet" ⟨["sol:s"], none, none⟩
    [Record.pollTx 1 ⟨List.replicate 32 2, List.replicate 20 1, none, 5⟩,
     Record.pollTx 1 ⟨List.replicate 32 2, List.replicate 20 1, none, 5⟩,
     Record.solanaSig "w" "s" (some ⟨9, none, some ["w"]⟩)],
   by decide⟩

end Tracker
